import Mathlib

/-!
Shallow embedding of the `playwright-ms-auth` authentication core.

JS strings are modelled as `List Char` (one entry per UTF-16 code unit; all
inputs relevant to the claims are ASCII, where this is exact).  Byte buffers
(`Buffer`) are modelled as `List Nat` with entries below 256.  Millisecond
clocks and file modification times are modelled as `Int`.
-/

namespace MsAuth

/-- The character class `[a-zA-Z0-9@.-]` of the sanitization regex in
`src/utils.ts` (`email.replace(/[^a-zA-Z0-9@.-]/g, "_")`). -/
def isAllowedChar (c : Char) : Bool :=
  ('a' ≤ c && c ≤ 'z') || ('A' ≤ c && c ≤ 'Z') || ('0' ≤ c && c ≤ '9') ||
    c = '@' || c = '.' || c = '-'

/-- One character of the sanitizing replacement: characters outside the class
are replaced by `'_'`. -/
def sanitizeChar (c : Char) : Char :=
  if isAllowedChar c then c else '_'

/-- `sanitizeEmail` from `src/utils.ts`:
`email.replace(/[^a-zA-Z0-9@.-]/g, "_")`. -/
def sanitizeEmail (email : List Char) : List Char :=
  email.map sanitizeChar

/-- The filename segment `state-<sanitizedEmail>.json` built by
`getStorageStatePath` in `src/utils.ts`. -/
def stateFileName (email : List Char) : List Char :=
  "state-".data ++ sanitizeEmail email ++ ".json".data

/-- `getStorageStatePath` from `src/utils.ts`: `join(authDir,
"state-<sanitizedEmail>.json")`, with the base directory as a parameter
(`getAuthBaseDir` reads the environment / home directory). -/
def getStorageStatePath (authDir : List Char) (email : List Char) : List Char :=
  authDir ++ "/".data ++ stateFileName email

/-- The characters allowed in the claimised filename alphabet
`[A-Za-z0-9@.-_]`: the sanitization class plus the replacement `'_'`. -/
def isFilenameSafeChar (c : Char) : Bool :=
  isAllowedChar c || c = '_'

/-- What `stat` can yield for a path: a modification time in milliseconds, or
an error carrying a Node `errno` code string (`"ENOENT"` = no such file). -/
inductive FsEntry where
  | file (mtimeMs : Int)
  | statError (code : List Char)
  deriving DecidableEq, Repr

/-- A snapshot of the filesystem as seen through `stat`. -/
def Fs : Type := List Char → FsEntry

/-- `isStorageStateValid` from `src/utils.ts`: `stat` the file, compute
`ageMs = Date.now() - stats.mtimeMs` and return `ageMs < expirationHours *
60 * 60 * 1000`; an `ENOENT` stat error yields `false`, any other stat error
is rethrown (propagated as `.error`). -/
def isStorageStateValid (fs : Fs) (filePath : List Char)
    (expirationHours : Int) (nowMs : Int) : Except (List Char) Bool :=
  match fs filePath with
  | .file mtimeMs =>
      .ok (decide (nowMs - mtimeMs < expirationHours * 60 * 60 * 1000))
  | .statError code =>
      if code = "ENOENT".data then .ok false else .error code

theorem sanitizeChar_allowed {c : Char} (h : isAllowedChar c = true) :
    sanitizeChar c = c := by
  simp [sanitizeChar, h]

theorem underscore_not_allowed : isAllowedChar '_' = false := by decide

theorem sanitizeChar_safe (c : Char) :
    isFilenameSafeChar (sanitizeChar c) = true := by
  by_cases h : isAllowedChar c = true
  · simp [sanitizeChar, h, isFilenameSafeChar]
  · simp [sanitizeChar, h, isFilenameSafeChar]

theorem sanitizeChar_inj {a b : Char} (hab : sanitizeChar a = sanitizeChar b)
    (h : isAllowedChar a = true ∨ isAllowedChar b = true) : a = b := by
  rcases h with h | h
  · rw [sanitizeChar_allowed h] at hab
    by_cases hb : isAllowedChar b = true
    · rw [sanitizeChar_allowed hb] at hab; exact hab
    · simp [sanitizeChar, hb] at hab
      rw [hab] at h
      exact absurd h (by decide)
  · rw [sanitizeChar_allowed h] at hab
    by_cases ha : isAllowedChar a = true
    · rwa [sanitizeChar_allowed ha] at hab
    · simp [sanitizeChar, ha] at hab
      rw [← hab] at h
      exact absurd h (by decide)

theorem sanitizeEmail_forall₂ :
    ∀ e₁ e₂ : List Char, sanitizeEmail e₁ = sanitizeEmail e₂ →
      List.Forall₂
        (fun a b => (isAllowedChar a = true ∨ isAllowedChar b = true) → a = b)
        e₁ e₂ := by
  intro e₁
  induction e₁ with
  | nil =>
      intro e₂ h
      cases e₂ with
      | nil => exact List.Forall₂.nil
      | cons b bs => simp [sanitizeEmail] at h
  | cons a as ih =>
      intro e₂ h
      cases e₂ with
      | nil => simp [sanitizeEmail] at h
      | cons b bs =>
          simp only [sanitizeEmail, List.map_cons, List.cons.injEq] at h
          exact List.Forall₂.cons (fun hc => sanitizeChar_inj h.1 hc)
            (ih bs h.2)

/-- C4: every character of the derived filename segment
`state-<sanitized>.json` lies in `[A-Za-z0-9@.-_]`, and sanitization only
identifies identities that already agreed at every position where at least
one of them has a character of the class `[A-Za-z0-9@.-]` (i.e. two distinct
identities collide only when they differ solely in characters outside that
class). -/
theorem c4_sanitization_safe_and_injective :
    (∀ (email : List Char) (c : Char), c ∈ stateFileName email →
        isFilenameSafeChar c = true) ∧
    (∀ e₁ e₂ : List Char, sanitizeEmail e₁ = sanitizeEmail e₂ →
        List.Forall₂
          (fun a b => (isAllowedChar a = true ∨ isAllowedChar b = true) →
            a = b)
          e₁ e₂) := by
  refine ⟨?_, sanitizeEmail_forall₂⟩
  intro email c hc
  simp only [stateFileName, List.mem_append] at hc
  rcases hc with (hc | hc) | hc
  · revert hc; revert c; decide
  · rcases List.mem_map.mp hc with ⟨a, _, rfl⟩
    exact sanitizeChar_safe a
  · revert hc; revert c; decide

/-- Witness for C4 at concrete inputs: `'s'` occurs in the filename segment
for identity `"u"` and is safe, and the identities `"a b"` and `"a#b"`, which
sanitize to the same name, agree at every position where either has an
in-class character. -/
theorem c4_witness :
    isFilenameSafeChar 's' = true ∧
      List.Forall₂
        (fun a b => (isAllowedChar a = true ∨ isAllowedChar b = true) →
          a = b)
        "a b".data "a#b".data := by
  constructor
  · exact c4_sanitization_safe_and_injective.1 "u".data 's' (by decide)
  · exact c4_sanitization_safe_and_injective.2 "a b".data "a#b".data
      (by decide)

/-- C1: `isStorageStateValid` returns `true` exactly when the file exists and
`now - mtime` is strictly below `ttlHours` in milliseconds; an `ENOENT` stat
error yields `false`; every other stat error propagates as an error.  In
particular a file whose modification time is more than `ttlHours` in the past
is invalid (the decision uses only the modification time, never the file
content). -/
theorem c1_storage_state_validity (fs : Fs) (p : List Char)
    (ttlHours nowMs : Int) :
    (isStorageStateValid fs p ttlHours nowMs = .ok true ↔
      ∃ m, fs p = .file m ∧ nowMs - m < ttlHours * 60 * 60 * 1000) ∧
    (fs p = .statError "ENOENT".data →
      isStorageStateValid fs p ttlHours nowMs = .ok false) ∧
    (∀ code, fs p = .statError code → code ≠ "ENOENT".data →
      isStorageStateValid fs p ttlHours nowMs = .error code) ∧
    (∀ m, fs p = .file m → ttlHours * 60 * 60 * 1000 < nowMs - m →
      isStorageStateValid fs p ttlHours nowMs = .ok false) := by
  refine ⟨?_, ?_, ?_, ?_⟩
  · constructor
    · intro h
      match hf : fs p with
      | .file m =>
          refine ⟨m, rfl, ?_⟩
          rw [isStorageStateValid, hf] at h
          simpa using h
      | .statError code =>
          rw [isStorageStateValid, hf] at h
          by_cases hc : code = "ENOENT".data <;> simp [hc] at h
    · rintro ⟨m, hm, hlt⟩
      rw [isStorageStateValid, hm]
      simp [hlt]
  · intro h
    rw [isStorageStateValid, h]
    simp
  · intro code h hne
    rw [isStorageStateValid, h]
    simp [hne]
  · intro m hm hgt
    rw [isStorageStateValid, hm]
    simp only [Except.ok.injEq, decide_eq_false_iff_not, not_lt]
    omega

/-- Witness for C1 at a concrete filesystem: a file 25 hours old with TTL 24
hours is invalid. -/
theorem c1_witness :
    isStorageStateValid (fun _ => .file 0) "p".data 24 90000000 =
      .ok false := by
  refine (c1_storage_state_validity (fun _ => .file 0) "p".data 24
      90000000).2.2.2 0 rfl (by decide)

/-! ## Certificate route bridge (`src/certAuth.ts`) -/

/-- The parts of an intercepted Playwright request that `certAuthHandler`
reads: `request.url()`, `request.method()`, `request.headers()`,
`request.postData()`. -/
structure InterceptedRequest where
  url : List Char
  method : List Char
  headers : List (List Char × List Char)
  postData : List Char
  deriving DecidableEq, Repr

/-- The outcome of the downstream HTTPS round trip as observed through the
events of `node:https`: either the request emits `error`, or a response
arrives with a status code, headers, and a sequence of body chunks that is
received in full. -/
inductive Downstream where
  | transportError (msg : List Char)
  | response (status : Nat) (headers : List (List Char × List Char))
      (chunks : List (List Char))
  deriving DecidableEq, Repr

/-- The payload handed to `route.fulfill`. -/
structure FulfillPayload where
  status : Nat
  headers : List (List Char × List Char)
  body : List Char
  deriving DecidableEq, Repr

/-- The outbound request built inside `doCertAuthPost`:
`https(request.url(), { method: "POST", headers: request.headers(), agent })`
followed by `req.write(request.postData())`.  The method is the literal
`"POST"`; url, headers and body are taken from the intercepted request. -/
structure ReplayRequest where
  method : List Char
  url : List Char
  headers : List (List Char × List Char)
  body : List Char
  deriving DecidableEq, Repr

/-- The outbound request of `doCertAuthPost` in `src/certAuth.ts`. -/
def buildReplayRequest (r : InterceptedRequest) : ReplayRequest :=
  { method := "POST".data
    url := r.url
    headers := r.headers
    body := r.postData }

/-- `doCertAuthPost` from `src/certAuth.ts`: a transport error rejects; a
response with `statusCode >= 400` rejects; otherwise the body chunks are
concatenated (`data += chunk`) and the promise resolves with the response's
status, headers and full body. -/
def doCertAuthPost (d : Downstream) : Except (List Char) FulfillPayload :=
  match d with
  | .transportError msg => .error msg
  | .response status headers chunks =>
      if 400 ≤ status then
        .error "Cert auth request failed".data
      else
        .ok { status := status, headers := headers, body := chunks.flatten }

/-- What the route handler does with the original browser request. -/
inductive RouteAction where
  | fulfill (payload : FulfillPayload)
  | abort (reason : List Char)
  deriving DecidableEq, Repr

/-- `certAuthHandler` from `src/certAuth.ts`: await `doCertAuthPost` and
`route.fulfill` its result; on any thrown error, `route.abort("failed")`. -/
def certAuthHandler (d : Downstream) : RouteAction :=
  match doCertAuthPost d with
  | .ok resp => .fulfill resp
  | .error _ => .abort "failed".data

/-- C5: a downstream transport error or a downstream status of 400 or above
makes the bridge abort the original browser request, and the handler fulfills
only when a response with status below 400 was received — and then with the
full concatenation of all received body chunks, never partial content. -/
theorem c5_bridge_abort_on_failure (d : Downstream) :
    (∀ msg, d = .transportError msg →
      certAuthHandler d = .abort "failed".data) ∧
    (∀ status headers chunks, d = .response status headers chunks →
      400 ≤ status → certAuthHandler d = .abort "failed".data) ∧
    (∀ p, certAuthHandler d = .fulfill p →
      ∃ status headers chunks, d = .response status headers chunks ∧
        status < 400 ∧
        p = { status := status, headers := headers,
              body := chunks.flatten }) := by
  refine ⟨?_, ?_, ?_⟩
  · rintro msg rfl; rfl
  · rintro status headers chunks rfl hs
    simp [certAuthHandler, doCertAuthPost, hs]
  · intro p hp
    match d with
    | .transportError msg => simp [certAuthHandler, doCertAuthPost] at hp
    | .response status headers chunks =>
        refine ⟨status, headers, chunks, rfl, ?_, ?_⟩
        · by_contra hge
          simp [certAuthHandler, doCertAuthPost, Nat.le_of_not_lt
            (by omega : ¬ status < 400)] at hp
        · by_cases hs : 400 ≤ status
          · simp [certAuthHandler, doCertAuthPost, hs] at hp
          · simp [certAuthHandler, doCertAuthPost, hs] at hp
            exact hp.symm

/-- Witness for C5: a concrete 502 downstream response is aborted. -/
theorem c5_witness :
    certAuthHandler (.response 502 [] ["oops".data]) =
      .abort "failed".data := by
  exact (c5_bridge_abort_on_failure (.response 502 [] ["oops".data])).2.1
    502 [] ["oops".data] rfl (by decide)

/-- Counterexample for C6: the replayed downstream request does *not* use the
intercepted request's HTTP method — `doCertAuthPost` hardcodes `"POST"`, so
an intercepted `GET` request is replayed with a different method. -/
theorem c6_counterexample :
    (buildReplayRequest
        { url := "https://certauth.login.microsoftonline.com/x".data
          method := "GET".data
          headers := []
          postData := [] }).method ≠
      ("GET".data : List Char) := by
  decide

/-- C6 (amended): the replayed downstream request always uses the method
`POST` (regardless of the intercepted request's method) and the intercepted
request's headers, body, and URL; on a success (status `< 400`) response, the
downstream status, headers, and concatenated body are forwarded unchanged to
fulfill the original browser-side request. -/
theorem c6_replay_forwarding (r : InterceptedRequest) :
    (buildReplayRequest r).method = "POST".data ∧
    (buildReplayRequest r).url = r.url ∧
    (buildReplayRequest r).headers = r.headers ∧
    (buildReplayRequest r).body = r.postData ∧
    (∀ status headers chunks, status < 400 →
      certAuthHandler (.response status headers chunks) =
        .fulfill { status := status, headers := headers,
                   body := chunks.flatten }) := by
  refine ⟨rfl, rfl, rfl, rfl, ?_⟩
  intro status headers chunks hs
  simp [certAuthHandler, doCertAuthPost, Nat.not_le_of_lt hs]

/-- Witness for C6 (amended) at a concrete request and a concrete 200
response with two body chunks. -/
theorem c6_witness :
    certAuthHandler (.response 200 [] ["ab".data, "cd".data]) =
      .fulfill { status := 200, headers := [],
                 body := ("ab".data ++ "cd".data : List Char) } := by
  have h := (c6_replay_forwarding
      { url := "u".data, method := "POST".data, headers := [],
        postData := [] }).2.2.2.2 200 [] ["ab".data, "cd".data] (by decide)
  simpa using h

/-! ## Credential classification (`src/providers/*`)

Byte buffers are `List Nat`; `Buffer#toString("utf-8")` is modelled per code
unit (`Char.ofNat`), exact for the ASCII data the claims are about.
`Buffer.from(s, "base64")` is modelled as Node does it for well-formed input:
non-alphabet characters (including `=` padding and whitespace) are skipped,
the remaining 6-bit groups are packed big-endian, and an incomplete trailing
byte is dropped. -/

/-- Value of one base64 alphabet character, `none` for anything else. -/
def base64CharVal (c : Char) : Option Nat :=
  if 'A' ≤ c && c ≤ 'Z' then some (c.toNat - 'A'.toNat)
  else if 'a' ≤ c && c ≤ 'z' then some (c.toNat - 'a'.toNat + 26)
  else if '0' ≤ c && c ≤ '9' then some (c.toNat - '0'.toNat + 52)
  else if c = '+' then some 62
  else if c = '/' then some 63
  else none

/-- Big-endian bits of one 6-bit group. -/
def sixBits (n : Nat) : List Bool :=
  [n / 32 % 2 = 1, n / 16 % 2 = 1, n / 8 % 2 = 1,
   n / 4 % 2 = 1, n / 2 % 2 = 1, n % 2 = 1]

/-- Pack a bit stream into bytes, dropping an incomplete trailing byte. -/
def bitsToBytes : List Bool → List Nat
  | b7 :: b6 :: b5 :: b4 :: b3 :: b2 :: b1 :: b0 :: rest =>
      ((if b7 then 128 else 0) + (if b6 then 64 else 0) +
       (if b5 then 32 else 0) + (if b4 then 16 else 0) +
       (if b3 then 8 else 0) + (if b2 then 4 else 0) +
       (if b1 then 2 else 0) + (if b0 then 1 else 0)) :: bitsToBytes rest
  | _ => []

/-- `Buffer.from(s, "base64")` for a JS string `s`. -/
def base64Decode (s : List Char) : List Nat :=
  bitsToBytes ((s.filterMap base64CharVal).flatMap sixBits)

/-- The ASCII whitespace recognised by JS `String#trim` (the claims involve
only ASCII whitespace). -/
def isJsWhitespace (c : Char) : Bool :=
  c = ' ' || c = '\t' || c = '\n' || c = '\r' ||
    c = Char.ofNat 11 || c = Char.ofNat 12

/-- JS `String#trim`: strip whitespace from both ends. -/
def jsTrim (s : List Char) : List Char :=
  ((s.dropWhile isJsWhitespace).reverse.dropWhile isJsWhitespace).reverse

/-- `Buffer#toString("utf-8")`, per code unit (exact on ASCII data). -/
def bufferToUtf8 (b : List Nat) : List Char :=
  b.map Char.ofNat

/-- A classified credential: a password string or a certificate buffer. -/
inductive CredentialValue where
  | password (text : List Char)
  | certificate (bytes : List Nat)
  deriving DecidableEq, Repr

/-- `EnvironmentProvider.getCredential` (classification part) from
`src/providers/EnvironmentProvider.ts`: base64-decode the variable's value;
if the decoded buffer is longer than 100 bytes and starts with `0x30` it is a
certificate, otherwise the value is returned as a password unchanged (no
trimming). -/
def environmentClassify (value : List Char) : CredentialValue :=
  let decoded := base64Decode value
  if 100 < decoded.length && decoded.head? == some 0x30 then
    .certificate decoded
  else
    .password value

/-- `GitHubSecretsProvider.getCredential` (classification part) from
`src/providers/GitHubSecretsProvider.ts`: identical decode-and-sniff logic to
the environment variant. -/
def gitHubSecretsClassify (value : List Char) : CredentialValue :=
  let decoded := base64Decode value
  if 100 < decoded.length && decoded.head? == some 0x30 then
    .certificate decoded
  else
    .password value

/-- Lowercasing of one character, as the `i` regex flag sees ASCII. -/
def toLowerChar (c : Char) : Char :=
  if 'A' ≤ c && c ≤ 'Z' then Char.ofNat (c.toNat + 32) else c

/-- Whether the path matches `/\.(ext)$/i` for the given lowercase
extension. -/
def matchesExtension (p : List Char) (ext : List Char) : Bool :=
  List.isSuffixOf ('.' :: ext) (p.map toLowerChar)

/-- Whether the path matches `/\.(e₁|e₂|…)$/i`. -/
def hasAnyExtension (p : List Char) (exts : List (List Char)) : Bool :=
  exts.any (matchesExtension p)

/-- Extensions of `/\.(txt|pwd|password)$/i` in `LocalFileProvider`. -/
def textExtensions : List (List Char) :=
  ["txt".data, "pwd".data, "password".data]

/-- Extensions of `/\.(pfx|p12|cer|crt|pem)$/i` in `LocalFileProvider`. -/
def certExtensions : List (List Char) :=
  ["pfx".data, "p12".data, "cer".data, "crt".data, "pem".data]

/-- `LocalFileProvider.getCredential` (classification part) from
`src/providers/LocalFileProvider.ts`: a text extension yields the trimmed
file text as a password; otherwise a certificate extension or a leading raw
byte `0x30` yields the raw bytes as a certificate; otherwise the trimmed text
is base64-decoded and a nonempty result starting with `0x30` yields that
decoded buffer as a certificate; otherwise the trimmed text is a password. -/
def localFileClassify (filePath : List Char) (fileContent : List Nat) :
    CredentialValue :=
  let isTextFile := hasAnyExtension filePath textExtensions
  let isCertFile := hasAnyExtension filePath certExtensions
  if isTextFile then
    .password (jsTrim (bufferToUtf8 fileContent))
  else if isCertFile || fileContent.head? == some 0x30 then
    .certificate fileContent
  else
    let decoded := base64Decode (jsTrim (bufferToUtf8 fileContent))
    if 0 < decoded.length && decoded.head? == some 0x30 then
      .certificate decoded
    else
      .password (jsTrim (bufferToUtf8 fileContent))

theorem suffix_total {l₁ l₂ p : List Char} (h₁ : l₁ <:+ p)
    (h₂ : l₂ <:+ p) : l₁ <:+ l₂ ∨ l₂ <:+ l₁ := by
  rcases List.prefix_or_prefix_of_prefix (List.reverse_prefix.mpr h₁)
      (List.reverse_prefix.mpr h₂) with h | h
  · exact Or.inl (List.reverse_prefix.mp h)
  · exact Or.inr (List.reverse_prefix.mp h)

theorem text_cert_extensions_exclusive (p : List Char)
    (ht : hasAnyExtension p textExtensions = true)
    (hc : hasAnyExtension p certExtensions = true) : False := by
  simp only [hasAnyExtension, textExtensions, certExtensions,
    matchesExtension, List.any_cons, List.any_nil, Bool.or_eq_true,
    Bool.or_eq_false_iff, List.isSuffixOf_iff_suffix] at ht hc
  rcases ht with h₁ | h₁ | h₁ | h₁ <;>
    rcases hc with h₂ | h₂ | h₂ | h₂ | h₂ | h₂ <;>
    first
      | exact absurd h₁ (by decide)
      | exact absurd h₂ (by decide)
      | rcases suffix_total h₁ h₂ with h | h <;> revert h <;> decide

/-- C10: in `LocalFileProvider`, the file-name extension takes precedence
over content sniffing — a text extension (`.txt`/`.pwd`/`.password`,
case-insensitive) yields a trimmed password even when the bytes begin with
`0x30`; a certificate extension (`.pfx`/`.p12`/`.cer`/`.crt`/`.pem`,
case-insensitive) yields the raw bytes as a certificate regardless of
content; and for paths with neither kind of extension the result depends on
the content alone. -/
theorem c10_extension_precedence (p : List Char) (c : List Nat) :
    (hasAnyExtension p textExtensions = true →
      localFileClassify p c = .password (jsTrim (bufferToUtf8 c))) ∧
    (hasAnyExtension p certExtensions = true →
      localFileClassify p c = .certificate c) ∧
    (∀ p', hasAnyExtension p textExtensions = false →
      hasAnyExtension p certExtensions = false →
      hasAnyExtension p' textExtensions = false →
      hasAnyExtension p' certExtensions = false →
      localFileClassify p c = localFileClassify p' c) := by
  refine ⟨?_, ?_, ?_⟩
  · intro h
    simp [localFileClassify, h]
  · intro h
    have ht : hasAnyExtension p textExtensions = false := by
      by_contra hne
      exact text_cert_extensions_exclusive p (eq_true_of_ne_false hne) h
    simp [localFileClassify, ht, h]
  · intro p' h₁ h₂ h₃ h₄
    simp [localFileClassify, h₁, h₂, h₃, h₄]

/-- Witness for C10: a `.txt` file whose bytes all are `0x30` is still a
password, and a `.PFX` file with non-DER content is still a certificate. -/
theorem c10_witness :
    localFileClassify "a.txt".data [0x30, 0x30, 0x30] =
        .password "000".data ∧
      localFileClassify "a.PFX".data [1, 2, 3] = .certificate [1, 2, 3] := by
  constructor
  · have h := (c10_extension_precedence "a.txt".data [0x30, 0x30, 0x30]).1
      (by decide)
    rw [h]; decide
  · exact (c10_extension_precedence "a.PFX".data [1, 2, 3]).2.1 (by decide)

/-- Counterexample for C3: the variants do not apply one uniform rule.  The
environment variant returns the password `" abc "` untrimmed (the claim says
passwords are whitespace-trimmed), and the blob `"MAA="` (base64 of the two
bytes `0x30 0x00`) is a password for the environment variant (threshold
`> 100`) but a certificate for the local-file variant (threshold `> 0`). -/
theorem c3_counterexample :
    environmentClassify " abc ".data = .password " abc ".data ∧
    jsTrim " abc ".data ≠ " abc ".data ∧
    environmentClassify "MAA=".data = .password "MAA=".data ∧
    localFileClassify "cred.dat".data ("MAA=".data.map Char.toNat) =
      .certificate [0x30, 0x00] := by
  refine ⟨by decide, by decide, by decide, by decide⟩

/-- C3 (amended): each metadata-free variant sniffs for a leading DER tag
`0x30` after optional base64 decoding, but the variants do not share one
threshold or trimming rule: the environment and CI-secret variants share the
rule "certificate iff the base64-decoded bytes number more than 100 and
start with `0x30`", returning passwords untrimmed; the local-file variant
(for paths without a recognized extension) yields a certificate iff the raw
bytes start with `0x30` (no size threshold) or the base64 decode of the
trimmed text is nonempty and starts with `0x30`, and it trims passwords. -/
theorem c3_classification_per_variant :
    (∀ v, gitHubSecretsClassify v = environmentClassify v) ∧
    (∀ v, (∃ b, environmentClassify v = .certificate b) ↔
      (100 < (base64Decode v).length ∧
        (base64Decode v).head? = some 0x30)) ∧
    (∀ v, (¬ ∃ b, environmentClassify v = .certificate b) →
      environmentClassify v = .password v) ∧
    (∀ p c, hasAnyExtension p textExtensions = false →
      hasAnyExtension p certExtensions = false →
      ((∃ b, localFileClassify p c = .certificate b) ↔
        (c.head? = some 0x30 ∨
          (0 < (base64Decode (jsTrim (bufferToUtf8 c))).length ∧
            (base64Decode (jsTrim (bufferToUtf8 c))).head? =
              some 0x30)))) ∧
    (∀ p c t, localFileClassify p c = .password t →
      t = jsTrim (bufferToUtf8 c)) := by
  refine ⟨fun v => rfl, ?_, ?_, ?_, ?_⟩
  · intro v
    by_cases h : (100 < (base64Decode v).length &&
        (base64Decode v).head? == some 0x30) = true
    · simp only [environmentClassify, h, if_true]
      simp only [Bool.and_eq_true, decide_eq_true_eq, beq_iff_eq] at h
      exact ⟨fun _ => h, fun _ => ⟨_, rfl⟩⟩
    · simp only [environmentClassify, h, if_false]
      simp only [Bool.and_eq_true, decide_eq_true_eq, beq_iff_eq,
        not_and] at h
      constructor
      · rintro ⟨b, hb⟩
        exact absurd hb (by simp)
      · intro hcontra
        exact absurd (h hcontra.1) (by simp [hcontra.2])
  · intro v hv
    by_cases h : (100 < (base64Decode v).length &&
        (base64Decode v).head? == some 0x30) = true
    · exact absurd ⟨base64Decode v, by simp [environmentClassify, h]⟩ hv
    · simp [environmentClassify, h]
  · intro p c hpt hpc
    by_cases hh : c.head? = some 0x30
    · simp [localFileClassify, hpt, hpc, hh]
    · by_cases hb : (0 < (base64Decode (jsTrim (bufferToUtf8 c))).length &&
          (base64Decode (jsTrim (bufferToUtf8 c))).head? == some 0x30) =
          true
      · simp only [Bool.and_eq_true, decide_eq_true_eq, beq_iff_eq] at hb
        simp [localFileClassify, hpt, hpc, hh, hb]
      · simp only [Bool.and_eq_true, decide_eq_true_eq, beq_iff_eq,
          not_and] at hb
        constructor
        · rintro ⟨b, hbb⟩
          rw [localFileClassify] at hbb
          simp only [hpt, hpc] at hbb
          by_cases hlen :
              0 < (base64Decode (jsTrim (bufferToUtf8 c))).length
          · simp [hh, hlen, hb hlen] at hbb
          · simp [hh, hlen] at hbb
        · intro hcontra
          rcases hcontra with hcontra | hcontra
          · exact absurd hcontra hh
          · exact absurd (hb hcontra.1) (by simp [hcontra.2])
  · intro p c t ht
    rw [localFileClassify] at ht
    by_cases h₁ : hasAnyExtension p textExtensions = true
    · simp [h₁] at ht
      exact ht.symm
    · rw [Bool.not_eq_true] at h₁
      by_cases h₂ : (hasAnyExtension p certExtensions ||
          c.head? == some 0x30) = true
      · simp [h₁, h₂] at ht
      · simp only [h₁, Bool.false_eq_true, if_false, h₂] at ht
        by_cases h₃ :
            (0 < (base64Decode (jsTrim (bufferToUtf8 c))).length &&
              (base64Decode (jsTrim (bufferToUtf8 c))).head? ==
                some 0x30) = true
        · simp [h₃] at ht
        · simp [h₃] at ht
          exact ht.symm

/-- Witness for C3 (amended): for the blob `"MAA="` (decoding to two bytes),
the environment variant yields no certificate. -/
theorem c3_witness :
    environmentClassify "MAA=".data = .password "MAA=".data := by
  refine c3_classification_per_variant.2.2.1 "MAA=".data ?_
  rintro ⟨b, hb⟩
  rw [show environmentClassify "MAA=".data =
      CredentialValue.password "MAA=".data from by decide] at hb
  exact CredentialValue.noConfusion hb

/-! ## Provider factory and configuration (`src/providers`, `src/types.ts`) -/

/-- The runtime shape of a provider configuration object: a record of
possibly-absent string fields (the union of all `ProviderConfig` variants of
`src/types.ts`, which the providers access through casts). -/
structure ProviderConfig where
  keyVaultEndpoint : Option (List Char) := none
  secretName : Option (List Char) := none
  secretVersion : Option (List Char) := none
  filePath : Option (List Char) := none
  certificatePassword : Option (List Char) := none
  variableName : Option (List Char) := none
  passwordVariableName : Option (List Char) := none
  repository : Option (List Char) := none
  token : Option (List Char) := none

/-- JS truthiness of a possibly-absent string (`!config.field` is true for
`undefined` and for the empty string). -/
def truthy : Option (List Char) → Bool
  | none => false
  | some s => !s.isEmpty

/-- `AzureKeyVaultProvider.validateConfig`; `urlOk` models the platform's
`new URL(endpoint)` succeeding. -/
def validateAzureKeyVaultConfig (urlOk : List Char → Bool)
    (c : ProviderConfig) : Except (List Char) Unit :=
  if !truthy c.keyVaultEndpoint then
    .error "KeyVault endpoint is required".data
  else if !truthy c.secretName then
    .error "Secret name is required".data
  else if !urlOk (c.keyVaultEndpoint.getD []) then
    .error "Invalid KeyVault endpoint URL".data
  else
    .ok ()

/-- `LocalFileProvider.validateConfig`. -/
def validateLocalFileConfig (c : ProviderConfig) : Except (List Char) Unit :=
  if !truthy c.filePath then
    .error "File path is required for local file provider".data
  else
    .ok ()

/-- `EnvironmentProvider.validateConfig`. -/
def validateEnvironmentConfig (c : ProviderConfig) :
    Except (List Char) Unit :=
  if !truthy c.variableName then
    .error "Environment variable name is required".data
  else
    .ok ()

/-- `GitHubSecretsProvider.validateConfig`. -/
def validateGitHubSecretsConfig (c : ProviderConfig) :
    Except (List Char) Unit :=
  if !truthy c.repository then
    .error "GitHub repository is required (format: owner/repo)".data
  else if !truthy c.secretName then
    .error "GitHub secret name is required".data
  else
    .ok ()

/-- `CredentialProviderFactory.createProvider`: dispatch on the provider-type
tag; each branch constructs a provider whose constructor eagerly runs
`validateConfig`; an unrecognized tag throws `Unsupported credential provider
type`. -/
def createProvider (urlOk : List Char → Bool) (type : List Char)
    (c : ProviderConfig) : Except (List Char) Unit :=
  if type = "azure-keyvault".data then validateAzureKeyVaultConfig urlOk c
  else if type = "local-file".data then validateLocalFileConfig c
  else if type = "environment".data then validateEnvironmentConfig c
  else if type = "github-secrets".data then validateGitHubSecretsConfig c
  else .error ("Unsupported credential provider type: ".data ++ type)

/-! ## Authentication orchestrator (`src/authenticate.ts`) -/

/-- The `MsAuthConfig` record of `src/types.ts` (fields the orchestrator
reads). -/
structure MsAuthConfig where
  email : List Char
  credentialType : List Char := "password".data
  credentialProvider : List Char
  providerConfig : ProviderConfig := {}
  outputDir : Option (List Char) := none
  storageStateExpiration : Option Int := none
  loginEndpoint : Option (List Char) := none
  headless : Option Bool := none
  waitForMsalTokens : Option Bool := none
  msalTokenTimeout : Option Int := none

/-- JS `a || b` for a possibly-absent string: the default steps in for
`undefined` and for the empty string. -/
def jsOr (v : Option (List Char)) (d : List Char) : List Char :=
  match v with
  | some s => if s.isEmpty then d else s
  | none => d

/-- `DEFAULT_LOGIN_ENDPOINT` from `src/authenticate.ts`. -/
def defaultLoginEndpoint : List Char := "login.microsoftonline.com".data

/-- Hostname of a plain `https://host/...` URL: the model of
`new URL(u).hostname` used by the redirect fallback (exact for URLs without
userinfo, which are the only ones the flow produces). -/
def urlHostname (u : List Char) : List Char :=
  (if "https://".data.isPrefixOf u then u.drop 8 else u).takeWhile
    (fun c => !(c == '/' || c == ':' || c == '?' || c == '#'))

/-- `new URL(u).origin` for a plain https URL. -/
def urlOrigin (u : List Char) : List Char :=
  "https://".data ++ urlHostname u

/-- `hostname.split('.').slice(-3).join('.')` from the redirect fallback in
`src/authenticate.ts`. -/
def baseDomain (h : List Char) : List Char :=
  let parts := h.splitOn '.'
  List.intercalate ".".data (parts.drop (parts.length - 3))

/-- The redirect fallback predicate of `performAuthenticationFlow` in
`src/authenticate.ts`: accepted when `currentUrl.startsWith(targetDomain)`,
or the last-three-label base domains agree, or the current hostname no
longer contains the login endpoint host. -/
def redirectFallbackOk (targetUrl currentUrl loginEndpointHost : List Char) :
    Bool :=
  let targetDomain := urlOrigin targetUrl
  let targetBaseDomain := baseDomain (urlHostname targetUrl)
  let currentHostname := urlHostname currentUrl
  let currentBaseDomain := baseDomain currentHostname
  let isOnTargetDomain := targetDomain.isPrefixOf currentUrl ||
    currentBaseDomain == targetBaseDomain
  let isOffLoginPage := !(decide (loginEndpointHost <:+: currentHostname))
  isOnTargetDomain || isOffLoginPage

/-- The whole `REDIRECT_WAIT` step: `page.waitForURL(targetUrl)` first
(`exactOk` is whether it resolved within its timeout); on timeout the
fallback predicate decides, and its failure throws the fatal redirect
error. -/
def redirectWaitOutcome (exactOk : Bool)
    (targetUrl currentUrl loginEndpointHost : List Char) :
    Except (List Char) Unit :=
  if exactOk then .ok ()
  else if redirectFallbackOk targetUrl currentUrl loginEndpointHost then
    .ok ()
  else
    .error "Authentication may have failed".data

/-- The observable steps of one orchestration pass. -/
inductive AuthEvent where
  | checkCache
  | createProviderStep
  | fetchCredential
  | launchBrowser
  | navigate
  | verifyLoginPage
  | enterEmail
  | credentialFlow
  | staySignedIn
  | redirectWait
  | tokenWait
  | ensureStorageDir
  | persistSession
  | screenshotSuccess
  | screenshotFailed
  deriving DecidableEq, Repr

/-- Outcomes of the browser-driver interactions of one flow execution (each
`await` that can reject), resolved by the environment. -/
structure FlowOracle where
  gotoRes : Except (List Char) Unit
  verifyRes : Except (List Char) Unit
  emailRes : Except (List Char) Unit
  credRes : Except (List Char) Unit
  stayRes : Except (List Char) Unit
  redirectExact : Bool
  currentUrl : List Char
  msalTokensFound : Bool
  ensureDirRes : Except (List Char) Unit
  persistRes : Except (List Char) Unit
  successShotDirRes : Except (List Char) Unit
  failShotDirRes : Except (List Char) Unit

/-- Run a sequence of fallible steps: events of the attempted steps, and the
first error if any. -/
def runSteps : List (AuthEvent × Except (List Char) Unit) →
    List AuthEvent × Option (List Char)
  | [] => ([], none)
  | (ev, .ok _) :: rest =>
      let r := runSteps rest
      (ev :: r.1, r.2)
  | (ev, .error e) :: _ => ([ev], some e)

/-- The ordered fallible steps of `performAuthenticationFlow` before the
session write: navigate, verify login page, enter email, credential branch,
"stay signed in" prompt, redirect wait, the (never-failing) MSAL token wait
when enabled, and the `ensureDirExists` for the storage directory. -/
def flowSteps (cfg : MsAuthConfig) (targetUrl : List Char) (o : FlowOracle) :
    List (AuthEvent × Except (List Char) Unit) :=
  [(.navigate, o.gotoRes),
   (.verifyLoginPage, o.verifyRes),
   (.enterEmail, o.emailRes),
   (.credentialFlow, o.credRes),
   (.staySignedIn, o.stayRes),
   (.redirectWait, redirectWaitOutcome o.redirectExact targetUrl
      o.currentUrl (jsOr cfg.loginEndpoint defaultLoginEndpoint))] ++
  (if cfg.waitForMsalTokens ≠ some false then [(.tokenWait, .ok ())]
   else []) ++
  [(.ensureStorageDir, o.ensureDirRes)]

/-- The `catch` block of `performAuthenticationFlow`: `ensureDirExists` for
the screenshot directory (fallible and uncaught), a best-effort screenshot
whose failure is swallowed, then rethrow of the in-flight error. -/
def failCapture (o : FlowOracle) (evs : List AuthEvent) (e : List Char) :
    List AuthEvent × Except (List Char) Unit :=
  match o.failShotDirRes with
  | .ok _ => (evs ++ [.screenshotFailed], .error e)
  | .error e₂ => (evs, .error e₂)

/-- `performAuthenticationFlow` from `src/authenticate.ts`: run the steps in
order; on the first error go through the `catch` block; otherwise write the
session snapshot (`context.storageState({ path })`), then the success
screenshot (its `ensureDirExists` is fallible, the screenshot itself is
best-effort). -/
def performAuthenticationFlow (cfg : MsAuthConfig) (targetUrl : List Char)
    (o : FlowOracle) : List AuthEvent × Except (List Char) Unit :=
  match runSteps (flowSteps cfg targetUrl o) with
  | (evs, some e) => failCapture o evs e
  | (evs, none) =>
      match o.persistRes with
      | .error e => failCapture o evs e
      | .ok _ =>
          match o.successShotDirRes with
          | .error e => failCapture o (evs ++ [.persistSession]) e
          | .ok _ => (evs ++ [.persistSession, .screenshotSuccess], .ok ())

/-- Environment outcomes for the parts of `authenticate` outside the flow:
the provider's `getCredential()` and the browser launch. -/
structure AuthOracle where
  fetchRes : Except (List Char) CredentialValue
  launchRes : Except (List Char) Unit
  flow : FlowOracle

/-- `authenticate` from `src/authenticate.ts`: derive the storage path,
short-circuit when `isStorageStateValid`, otherwise construct the provider
(eager validation), fetch the credential, launch the browser, and run the
flow. -/
def authenticate (authDir : List Char) (fs : Fs) (nowMs : Int)
    (urlOk : List Char → Bool) (cfg : MsAuthConfig) (targetUrl : List Char)
    (o : AuthOracle) : List AuthEvent × Except (List Char) Unit :=
  let storagePath := getStorageStatePath authDir cfg.email
  match isStorageStateValid fs storagePath
      (cfg.storageStateExpiration.getD 24) nowMs with
  | .error e => ([.checkCache], .error e)
  | .ok true => ([.checkCache], .ok ())
  | .ok false =>
      match createProvider urlOk cfg.credentialProvider
          cfg.providerConfig with
      | .error e => ([.checkCache], .error e)
      | .ok _ =>
          match o.fetchRes with
          | .error e => ([.checkCache, .createProviderStep], .error e)
          | .ok _ =>
              match o.launchRes with
              | .error e =>
                  ([.checkCache, .createProviderStep, .fetchCredential],
                   .error e)
              | .ok _ =>
                  let r := performAuthenticationFlow cfg targetUrl o.flow
                  (.checkCache :: .createProviderStep :: .fetchCredential ::
                    .launchBrowser :: r.1, r.2)

/-- C7: the `REDIRECT_WAIT` step first waits for the exact target URL; on
timeout it accepts when the current hostname's last-three-label base domain
equals the target's, and accepts when the current hostname no longer
contains the login-endpoint host; it throws the fatal redirect error only
when neither condition holds (the code additionally accepts a current URL
that extends the target origin string, which the claim's one-directional
wording permits). -/
theorem c7_redirect_fallback (exactOk : Bool)
    (targetUrl currentUrl loginEndpointHost : List Char) :
    (exactOk = true →
      redirectWaitOutcome exactOk targetUrl currentUrl loginEndpointHost =
        .ok ()) ∧
    (baseDomain (urlHostname currentUrl) =
        baseDomain (urlHostname targetUrl) →
      redirectWaitOutcome exactOk targetUrl currentUrl loginEndpointHost =
        .ok ()) ∧
    (¬ (loginEndpointHost <:+: urlHostname currentUrl) →
      redirectWaitOutcome exactOk targetUrl currentUrl loginEndpointHost =
        .ok ()) ∧
    (∀ e, redirectWaitOutcome exactOk targetUrl currentUrl
        loginEndpointHost = .error e →
      exactOk = false ∧
      baseDomain (urlHostname currentUrl) ≠
        baseDomain (urlHostname targetUrl) ∧
      loginEndpointHost <:+: urlHostname currentUrl) := by
  refine ⟨?_, ?_, ?_, ?_⟩
  · intro h
    simp [redirectWaitOutcome, h]
  · intro h
    by_cases he : exactOk = true
    · simp [redirectWaitOutcome, he]
    · simp [redirectWaitOutcome, he, redirectFallbackOk, h]
  · intro h
    by_cases he : exactOk = true
    · simp [redirectWaitOutcome, he]
    · simp [redirectWaitOutcome, he, redirectFallbackOk, h]
  · intro e herr
    by_cases he : exactOk = true
    · simp [redirectWaitOutcome, he] at herr
    · by_cases hf : redirectFallbackOk targetUrl currentUrl
          loginEndpointHost = true
      · simp [redirectWaitOutcome, he, hf] at herr
      · rw [Bool.not_eq_true] at hf he
        simp only [redirectFallbackOk, Bool.or_eq_false_iff,
          Bool.not_eq_false', beq_eq_false_iff_ne, ne_eq,
          decide_eq_true_eq] at hf
        exact ⟨he, hf.1.2, hf.2⟩

/-- Witness for C7: with the exact wait timed out, a current URL off the
default login endpoint's hostname is accepted. -/
theorem c7_witness :
    redirectWaitOutcome false "https://app.powerapps.com/".data
      "https://other.example.org/".data defaultLoginEndpoint = .ok () := by
  exact (c7_redirect_fallback false "https://app.powerapps.com/".data
    "https://other.example.org/".data defaultLoginEndpoint).2.2.1
    (by decide)

/-- C2: when the session file for the configured identity is younger than
the TTL, a repeated `authenticate` performs only the cache check — no
provider construction, no credential fetch, no browser launch and no
navigation — and the derived cache path is the same as on any call with the
same identity. -/
theorem c2_idempotent_within_ttl (authDir : List Char) (fs : Fs)
    (nowMs : Int) (urlOk : List Char → Bool) (cfg : MsAuthConfig)
    (targetUrl : List Char) (o : AuthOracle) (t₁ : Int)
    (hfile : fs (getStorageStatePath authDir cfg.email) = .file t₁)
    (hyoung : nowMs - t₁ <
      (cfg.storageStateExpiration.getD 24) * 60 * 60 * 1000) :
    authenticate authDir fs nowMs urlOk cfg targetUrl o =
      ([.checkCache], .ok ()) ∧
    AuthEvent.fetchCredential ∉
      (authenticate authDir fs nowMs urlOk cfg targetUrl o).1 ∧
    AuthEvent.navigate ∉
      (authenticate authDir fs nowMs urlOk cfg targetUrl o).1 ∧
    AuthEvent.launchBrowser ∉
      (authenticate authDir fs nowMs urlOk cfg targetUrl o).1 ∧
    (∀ cfg' : MsAuthConfig, cfg'.email = cfg.email →
      getStorageStatePath authDir cfg'.email =
        getStorageStatePath authDir cfg.email) := by
  have hvalid : isStorageStateValid fs
      (getStorageStatePath authDir cfg.email)
      (cfg.storageStateExpiration.getD 24) nowMs = .ok true := by
    rw [isStorageStateValid, hfile]
    simp [hyoung]
  have hauth : authenticate authDir fs nowMs urlOk cfg targetUrl o =
      ([.checkCache], .ok ()) := by
    rw [authenticate, hvalid]
  refine ⟨hauth, ?_, ?_, ?_, ?_⟩
  · rw [hauth]; simp
  · rw [hauth]; simp
  · rw [hauth]; simp
  · intro cfg' hm
    rw [hm]

/-- Witness for C2: a cache file one hour old with the default 24-hour TTL
short-circuits the pass. -/
theorem c2_witness :
    authenticate "base".data
      (fun p =>
        if p = getStorageStatePath "base".data "user@test.com".data then
          .file 0
        else .statError "ENOENT".data)
      3600000 (fun _ => true)
      { email := "user@test.com".data,
        credentialProvider := "environment".data,
        providerConfig := { variableName := some "PW".data } }
      "https://t".data
      { fetchRes := .ok (.password []), launchRes := .ok (),
        flow := { gotoRes := .ok (), verifyRes := .ok (),
                  emailRes := .ok (), credRes := .ok (), stayRes := .ok (),
                  redirectExact := true, currentUrl := [],
                  msalTokensFound := true, ensureDirRes := .ok (),
                  persistRes := .ok (), successShotDirRes := .ok (),
                  failShotDirRes := .ok () } } =
      ([.checkCache], .ok ()) := by
  exact (c2_idempotent_within_ttl "base".data _ 3600000 (fun _ => true) _
    "https://t".data _ 0 (by simp) (by decide)).1

/-- C9: provider-configuration validation, eager at provider construction,
never runs on a cache-hit pass — an invalid provider configuration raises no
error there — and on a cache-miss pass the same invalid configuration fails
the pass right after the cache check, before any fetch or navigation. -/
theorem c9_validation_only_on_cache_miss :
    (∀ (authDir : List Char) (fs : Fs) (nowMs : Int)
        (urlOk : List Char → Bool) (cfg : MsAuthConfig)
        (targetUrl : List Char) (o : AuthOracle) (t₁ : Int)
        (e : List Char),
      fs (getStorageStatePath authDir cfg.email) = .file t₁ →
      nowMs - t₁ <
        (cfg.storageStateExpiration.getD 24) * 60 * 60 * 1000 →
      createProvider urlOk cfg.credentialProvider cfg.providerConfig =
        .error e →
      authenticate authDir fs nowMs urlOk cfg targetUrl o =
        ([.checkCache], .ok ())) ∧
    (∀ (authDir : List Char) (fs : Fs) (nowMs : Int)
        (urlOk : List Char → Bool) (cfg : MsAuthConfig)
        (targetUrl : List Char) (o : AuthOracle) (e : List Char),
      fs (getStorageStatePath authDir cfg.email) =
        .statError "ENOENT".data →
      createProvider urlOk cfg.credentialProvider cfg.providerConfig =
        .error e →
      authenticate authDir fs nowMs urlOk cfg targetUrl o =
        ([.checkCache], .error e)) := by
  constructor
  · intro authDir fs nowMs urlOk cfg targetUrl o t₁ e hfile hyoung _
    exact (c2_idempotent_within_ttl authDir fs nowMs urlOk cfg targetUrl o
      t₁ hfile hyoung).1
  · intro authDir fs nowMs urlOk cfg targetUrl o e hmiss hcp
    have hinvalid : isStorageStateValid fs
        (getStorageStatePath authDir cfg.email)
        (cfg.storageStateExpiration.getD 24) nowMs = .ok false := by
      rw [isStorageStateValid, hmiss]
      simp
    rw [authenticate, hinvalid, hcp]

/-- Witness for C9: with an empty provider configuration for the
`environment` provider, a cache-miss pass fails with the validation error
while the same configuration on a cache-hit pass raises nothing. -/
theorem c9_witness :
    authenticate "base".data (fun _ => .statError "ENOENT".data) 0
      (fun _ => true)
      { email := "user@test.com".data,
        credentialProvider := "environment".data }
      "https://t".data
      { fetchRes := .ok (.password []), launchRes := .ok (),
        flow := { gotoRes := .ok (), verifyRes := .ok (),
                  emailRes := .ok (), credRes := .ok (), stayRes := .ok (),
                  redirectExact := true, currentUrl := [],
                  msalTokensFound := true, ensureDirRes := .ok (),
                  persistRes := .ok (), successShotDirRes := .ok (),
                  failShotDirRes := .ok () } } =
      ([.checkCache],
        .error "Environment variable name is required".data) := by
  exact c9_validation_only_on_cache_miss.2 "base".data _ 0 (fun _ => true)
    _ "https://t".data _ "Environment variable name is required".data rfl
    rfl

theorem runSteps_events_subset
    (l : List (AuthEvent × Except (List Char) Unit)) (ev : AuthEvent)
    (h : ev ∈ (runSteps l).1) : ev ∈ l.map Prod.fst := by
  induction l with
  | nil => simp [runSteps] at h
  | cons hd tl ih =>
      match hd with
      | (e, .ok u) =>
          simp only [runSteps, List.mem_cons] at h
          rcases h with rfl | h
          · simp
          · simp only [List.map_cons, List.mem_cons]
            exact Or.inr (ih h)
      | (e, .error err) =>
          simp only [runSteps, List.mem_singleton] at h
          simp [h]

theorem persistSession_not_in_flowSteps (cfg : MsAuthConfig)
    (targetUrl : List Char) (o : FlowOracle) :
    AuthEvent.persistSession ∉ (flowSteps cfg targetUrl o).map Prod.fst := by
  by_cases h : cfg.waitForMsalTokens ≠ some false <;> simp [flowSteps, h]

/-- C8: the session snapshot is written exactly when every step before the
write succeeded — an execution of `performAuthenticationFlow` that errors at
any step before persistence never records the persist step, and its error
path appends only the diagnostic screenshot before rethrowing the same
error. -/
theorem c8_persist_only_on_success (cfg : MsAuthConfig)
    (targetUrl : List Char) (o : FlowOracle) :
    (AuthEvent.persistSession ∈
        (performAuthenticationFlow cfg targetUrl o).1 ↔
      ((runSteps (flowSteps cfg targetUrl o)).2 = none ∧
        o.persistRes = .ok ())) ∧
    (∀ e, (runSteps (flowSteps cfg targetUrl o)).2 = some e →
      o.failShotDirRes = .ok () →
      performAuthenticationFlow cfg targetUrl o =
        ((runSteps (flowSteps cfg targetUrl o)).1 ++ [.screenshotFailed],
          .error e)) := by
  have hnp : AuthEvent.persistSession ∉
      (runSteps (flowSteps cfg targetUrl o)).1 := fun h =>
    persistSession_not_in_flowSteps cfg targetUrl o
      (runSteps_events_subset _ _ h)
  rcases hr : runSteps (flowSteps cfg targetUrl o) with ⟨evs, r⟩
  rw [hr] at hnp
  constructor
  · cases r with
    | some e =>
        cases hfs : o.failShotDirRes with
        | ok u =>
            simp [performAuthenticationFlow, hr, failCapture, hfs, hnp]
        | error e₂ =>
            simp [performAuthenticationFlow, hr, failCapture, hfs, hnp]
    | none =>
        cases hp : o.persistRes with
        | error e =>
            cases hfs : o.failShotDirRes with
            | ok u =>
                simp [performAuthenticationFlow, hr, failCapture, hfs, hp,
                  hnp]
            | error e₂ =>
                simp [performAuthenticationFlow, hr, failCapture, hfs, hp,
                  hnp]
        | ok u =>
            cases hs : o.successShotDirRes with
            | ok v =>
                simp [performAuthenticationFlow, hr, failCapture, hs, hp]
            | error e =>
                cases hfs : o.failShotDirRes with
                | ok w =>
                    simp [performAuthenticationFlow, hr, failCapture, hs,
                      hfs, hp]
                | error e₂ =>
                    simp [performAuthenticationFlow, hr, failCapture, hs,
                      hfs, hp]
  · intro e hre hfs
    simp only at hre
    subst hre
    simp [performAuthenticationFlow, hr, failCapture, hfs]

/-- Witness for C8: a navigation failure produces only the navigate attempt
and the diagnostic screenshot, rethrows the navigation error, and writes no
session snapshot. -/
theorem c8_witness :
    performAuthenticationFlow
      { email := "u@x.com".data, credentialProvider := "environment".data }
      "https://app.example.com/".data
      { gotoRes := .error "boom".data, verifyRes := .ok (),
        emailRes := .ok (), credRes := .ok (), stayRes := .ok (),
        redirectExact := true, currentUrl := [], msalTokensFound := true,
        ensureDirRes := .ok (), persistRes := .ok (),
        successShotDirRes := .ok (), failShotDirRes := .ok () } =
      ([AuthEvent.navigate, AuthEvent.screenshotFailed],
        .error "boom".data) := by
  have h := (c8_persist_only_on_success
    { email := "u@x.com".data, credentialProvider := "environment".data }
    "https://app.example.com/".data
    { gotoRes := .error "boom".data, verifyRes := .ok (),
      emailRes := .ok (), credRes := .ok (), stayRes := .ok (),
      redirectExact := true, currentUrl := [], msalTokensFound := true,
      ensureDirRes := .ok (), persistRes := .ok (),
      successShotDirRes := .ok (), failShotDirRes := .ok () }).2
    "boom".data (by decide) rfl
  rw [h]
  rfl

end MsAuth
